import Mathlib

/-!
Shallow embedding of `src/Device/Driver/FLARM/Logger.cpp` (XCSoar FLARM
device-driver logger): record-info parsing, flight-list enumeration and
chunked IGC flight download, together with proofs of the specification
claims about them.

Strings are embedded as `List Char`, byte buffers as `List Nat`, and the
device plus the progress/cancellation environment as explicit scripts of
replies and polled flags.  Each definition mirrors one function of the
source file; deviations forced by the embedding (for example the libc
function `strtoul`, or transport calls that live in other files of the
repository) are noted in the doc comment of the definition concerned.
-/

namespace FlarmLogger

/-- BrokenDate as used by `ParseDate` in the source: year/month/day
fields, embedded as unbounded naturals (the parsed values in every claim
are far below the machine-integer bounds). -/
structure BrokenDate where
  year : Nat
  month : Nat
  day : Nat
deriving DecidableEq

/-- BrokenTime as used by `ParseTime` and the record end-time
computation: hour/minute/second fields. -/
structure BrokenTime where
  hour : Nat
  minute : Nat
  second : Nat
deriving DecidableEq

/-- Helper of `parseNatPrefix`: consumes the longest leading run of
decimal digits, accumulating their base-10 value (48 is the code of the
digit zero). -/
def digitsPrefix : List Char → Nat → Nat × List Char
  | [], acc => (acc, [])
  | ch :: rest, acc =>
    if ch.isDigit then digitsPrefix rest (acc * 10 + (ch.toNat - 48))
    else (acc, ch :: rest)

/-- Model of the libc call `strtoul(str, &endptr, 10)` as used on the
record-info fields: parses the longest leading run of decimal digits and
returns the value together with the rest of the string (the position of
`endptr`); returns none when there is no leading digit, which is exactly
the `str == endptr` condition checked by the source.  The
whitespace/sign forms accepted by the C function never occur in the
fields this file is applied to and are not modelled. -/
def parseNatPrefix (s : List Char) : Option (Nat × List Char) :=
  match s with
  | [] => none
  | ch :: _ => if ch.isDigit then some (digitsPrefix s 0) else none

/-- Translation of the static `ParseDate` of Logger.cpp: year, a
mandatory dash, month, a mandatory dash, then day; the final check of
the source only requires that at least one day digit was parsed, so
trailing characters after the day are ignored. -/
def ParseDate (s : List Char) : Option BrokenDate :=
  match parseNatPrefix s with
  | none => none
  | some (year, r1) =>
    match r1 with
    | '-' :: r2 =>
      match parseNatPrefix r2 with
      | none => none
      | some (month, r3) =>
        match r3 with
        | '-' :: r4 =>
          match parseNatPrefix r4 with
          | none => none
          | some (day, _) => some ⟨year, month, day⟩
        | _ => none
    | _ => none

/-- Translation of the static `ParseTime` of Logger.cpp: hour, a
mandatory colon, minute, a mandatory colon, then second; as in
`ParseDate`, trailing characters after the seconds are ignored. -/
def ParseTime (s : List Char) : Option BrokenTime :=
  match parseNatPrefix s with
  | none => none
  | some (hour, r1) =>
    match r1 with
    | ':' :: r2 =>
      match parseNatPrefix r2 with
      | none => none
      | some (minute, r3) =>
        match r3 with
        | ':' :: r4 =>
          match parseNatPrefix r4 with
          | none => none
          | some (second, _) => some ⟨hour, minute, second⟩
        | _ => none
    | _ => none

/-- One of the carry loops of the static `operator+` of Logger.cpp,
`while (v > 60) { v -= 60; carry++; }`, returning the final value and
the number of carries.  The first argument is fuel bounding the number
of iterations; `whileGt60` passes the initial value itself, which always
suffices because every iteration removes 60. -/
def whileGt60Aux : Nat → Nat → Nat × Nat
  | 0, v => (v, 0)
  | fuel + 1, v =>
    if 60 < v then
      let p := whileGt60Aux fuel (v - 60)
      (p.1, p.2 + 1)
    else (v, 0)

/-- The carry loop of the static `operator+` of Logger.cpp on one
component: final value and number of carries. -/
def whileGt60 (v : Nat) : Nat × Nat := whileGt60Aux v v

/-- Translation of the static `operator+(BrokenTime &, BrokenTime &)` of
Logger.cpp: componentwise sums followed by the second-to-minute and
minute-to-hour carry loops.  Note that the source loops use the strict
comparison `> 60`, so a component summing to exactly 60 is left in
place, and hours are never reduced (no day rollover). -/
def addBrokenTime (a b : BrokenTime) : BrokenTime :=
  let s := whileGt60 (a.second + b.second)
  let m := whileGt60 (a.minute + b.minute + s.2)
  ⟨a.hour + b.hour + m.2, m.1, s.1⟩

/-- Model of the `strchr(record_info, '|')` / null-terminate / `p++`
sequence used throughout `ParseRecordInfo`: splits the string at the
first bar separator, returning the field before it and the remainder
after it, or none when no separator occurs.  (The source follows each
`p++` with `if (p == 0) return false;`, a comparison of the advanced
pointer, not the character, against NULL; it can never fire and has no
counterpart here.) -/
def splitBar : List Char → Option (List Char × List Char)
  | [] => none
  | ch :: rest =>
    if ch = '|' then some ([], rest)
    else
      match splitBar rest with
      | none => none
      | some p => some (ch :: p.1, p.2)

/-- The fields of RecordedFlightInfo written by `ParseRecordInfo`:
flight date, start time, and the derived end time. -/
structure ParsedRecord where
  date : BrokenDate
  start_time : BrokenTime
  end_time : BrokenTime
deriving DecidableEq

/-- The tail of `ParseRecordInfo` once the date field has been
determined: parse the date field, split off and parse the start-time
field, split off and parse the duration field (the duration must itself
be followed by a further separator, since the source searches for one
before parsing it), and derive the end time with the source's
`operator+`. -/
def parseDateOn (dateField rest : List Char) : Option ParsedRecord :=
  match ParseDate dateField with
  | none => none
  | some date =>
    match splitBar rest with
    | none => none
    | some (startField, r2) =>
      match ParseTime startField with
      | none => none
      | some start =>
        match splitBar r2 with
        | none => none
        | some (durField, _) =>
          match ParseTime durField with
          | none => none
          | some dur => some ⟨date, start, addBrokenTime start dur⟩

/-- The then-branch of the filename heuristic in `ParseRecordInfo`: the
first field was longer than 10 characters, so it is taken to be the
filename; split off the next field and continue with it as the date. -/
def skipFilename (r : List Char) : Option ParsedRecord :=
  match splitBar r with
  | none => none
  | some (f2, r2) => parseDateOn f2 r2

/-- Translation of the static `ParseRecordInfo` of Logger.cpp: split off
the first bar-separated field; if it is longer than 10 characters it
cannot be a date, so discard it as the filename and re-anchor on the
following field; then parse date, start time and duration positionally
and derive the end time. -/
def ParseRecordInfo (s : List Char) : Option ParsedRecord :=
  match splitBar s with
  | none => none
  | some (f1, r1) =>
    if f1.length > 10 then skipFilename r1
    else parseDateOn f1 r1

/-- Outcome of one request/response exchange as observed by the logger
code: an ACK carrying a payload (embedded as a list of characters, since
the record-info payload is consumed as a C string), a NACK, or a failure
(covering a send failure, a timeout of WaitForACKOrNACK, and any reply
that is neither ACK nor NACK — all of these make the source functions
take the same early-return path). -/
inductive FLReply where
  | ack (payload : List Char)
  | nack
  | fail
deriving DecidableEq

/-- The classification of a reply produced by `FlarmDevice::SelectFlight`:
the MessageType it returns is compared against MT_ACK and MT_NACK by the
callers, every other value (including the MT_ERROR returned on a send
failure) taking the error path. -/
inductive MessageType where
  | ack
  | nack
  | error
deriving DecidableEq

/-- Translation of `FlarmDevice::SelectFlight`: send the SELECTRECORD
frame carrying the record number and classify the reply.  The record
number itself does not influence the classification, which is determined
by the scripted reply. -/
def SelectFlight (r : FLReply) : MessageType :=
  match r with
  | FLReply.ack _ => MessageType.ack
  | FLReply.nack => MessageType.nack
  | FLReply.fail => MessageType.error

/-- Translation of `FlarmDevice::ReadFlightInfo`, with the GETRECORDINFO
exchange abstracted to its scripted reply: anything but an ACK fails,
an ACK whose payload length is at most 2 fails, and otherwise the
metadata line starting at byte offset 2 of the payload is parsed. -/
def ReadFlightInfo (r : FLReply) : Option ParsedRecord :=
  match r with
  | FLReply.ack payload =>
    if payload.length ≤ 2 then none else ParseRecordInfo (payload.drop 2)
  | _ => none

/-- RecordedFlightInfo as appended to the flight list by
`FlarmDevice::ReadFlightList`: the FLARM-internal record index stored in
`internal.flarm` before the metadata request, plus the fields written by
`ParseRecordInfo`. -/
structure RecordedFlightInfo where
  internal_flarm : Nat
  date : BrokenDate
  start_time : BrokenTime
  end_time : BrokenTime
deriving DecidableEq

/-- Builds the RecordedFlightInfo appended by `ReadFlightList` from the
loop index and the parsed metadata. -/
def mkRecord (i : Nat) (pr : ParsedRecord) : RecordedFlightInfo :=
  ⟨i, pr.date, pr.start_time, pr.end_time⟩

/-- One request issued on the link during flight-list enumeration: a
SELECTRECORD exchange carrying a record index, or a GETRECORDINFO
exchange. -/
inductive Req where
  | select (index : Nat)
  | getInfo
deriving DecidableEq

/-- Observable outcome of `ReadFlightList`: the boolean return value,
the flight list built up, and the requests issued on the link in
order. -/
structure FLResult where
  ok : Bool
  list : List RecordedFlightInfo
  trace : List Req
deriving DecidableEq

/-- Translation of the loop of `FlarmDevice::ReadFlightList`.  `cap` is
the fixed capacity of RecordedFlightList (`flight_list.full()`), `cancel`
gives the value of each successive `env.IsCancelled()` poll (`c` counts
the polls made so far), `script` is the list of replies the device gives
to the successive exchanges (each exchange consumes one entry; an
exhausted script behaves as a timeout), `i` is the uint8_t loop counter
(kept below 256 by the `% 256` step, mirroring the wrap-around of `++i`
on uint8_t), and `acc` is the list built so far.  Progress reporting
(`SetProgressRange`/`SetProgressPosition`) has no observable effect on
the results and is not modelled.  Per iteration: stop with success when
the list is full; issue the SELECT exchange; NACK stops with success,
anything other than ACK fails, an ACK followed by a positive
cancellation poll fails; otherwise the GETRECORDINFO exchange of
`ReadFlightInfo` consumes the next reply, a parsed record is appended
and a failed one is skipped, and the loop continues. -/
def readAux (cap : Nat) (cancel : Nat → Bool) :
    List FLReply → Nat → Nat → List RecordedFlightInfo → FLResult
  | script, c, i, acc =>
    if cap ≤ acc.length then ⟨true, acc, []⟩
    else
      match script with
      | [] => ⟨false, acc, [Req.select i]⟩
      | r :: rest =>
        match SelectFlight r with
        | MessageType.nack => ⟨true, acc, [Req.select i]⟩
        | MessageType.error => ⟨false, acc, [Req.select i]⟩
        | MessageType.ack =>
          if cancel c then ⟨false, acc, [Req.select i]⟩
          else
            match rest with
            | [] =>
              -- The GETRECORDINFO exchange times out on the exhausted
              -- script, the record is skipped, and the next iteration's
              -- SELECT times out as well; that continuation is written
              -- out here because it issues no further recursion.
              if cap ≤ acc.length then ⟨true, acc, [Req.select i, Req.getInfo]⟩
              else
                ⟨false, acc,
                 [Req.select i, Req.getInfo, Req.select ((i + 1) % 256)]⟩
            | ir :: rest2 =>
              let acc2 :=
                match ReadFlightInfo ir with
                | some pr => acc ++ [mkRecord i pr]
                | none => acc
              let r2 := readAux cap cancel rest2 (c + 1) ((i + 1) % 256) acc2
              ⟨r2.ok, r2.list, Req.select i :: Req.getInfo :: r2.trace⟩

/-- Translation of `FlarmDevice::ReadFlightList`: run the enumeration
loop from index 0 with an empty list. -/
def ReadFlightList (cap : Nat) (cancel : Nat → Bool) (script : List FLReply) :
    FLResult :=
  readAux cap cancel script 0 0 []

/-- The record indices carried by the SELECTRECORD exchanges of a
request trace, in order. -/
def traceSelects : List Req → List Nat
  | [] => []
  | Req.select n :: rest => n :: traceSelects rest
  | Req.getInfo :: rest => traceSelects rest

/-- Reply to one GETIGCDATA exchange of the download loop: an ACK with
its payload (a byte list), or anything else (`WaitForACKOrNACK`
returning other than MT_ACK, which covers NACK and timeout). -/
inductive DlReply where
  | ack (payload : List Nat)
  | noAck
deriving DecidableEq

/-- Environment of one run of the download loop, indexed by the
iteration number: whether sending the GETIGCDATA request succeeded
(`SendStartByte`/`SendFrameHeader`, modelled from the spec's transport
`send -> bool` since those functions live outside the provided sources),
and the two `env.IsCancelled()` polls of the iteration — the one made
right after the request has been sent and the one made after the reply
has arrived. -/
structure DlEnv where
  sendOk : Nat → Bool
  cancelAfterSend : Nat → Bool
  cancelAfterReply : Nat → Bool

/-- Observable outcome of the download loop: the boolean return value,
the bytes written to the sink in order, and the number of GETIGCDATA
requests attempted. -/
structure DlResult where
  ok : Bool
  written : List Nat
  attempts : Nat
deriving DecidableEq

/-- Translation of the loop of `FlarmDevice::DownloadFlight(path, env)`.
Each iteration `k`: send the request (a send failure, or a positive
cancellation poll right after the send, fails the download — note the
source polls IsCancelled only after the request has gone out); consume
the next scripted reply (an exhausted script is a timeout); anything but
an ACK, an ACK with payload length at most 3, or a positive cancellation
poll after the reply fails the download; otherwise the effective length
is the payload length minus 3, the payload byte at offset 2 is the
progress percentage (progress reporting is not modelled), and if the
last payload byte is 0x1A (26) this is the final chunk: the effective
length is reduced by one more and the loop stops after writing.  The
effective bytes from offset 3 are appended to the sink. -/
def dlLoop (env : DlEnv) : List DlReply → Nat → List Nat → DlResult
  | script, k, acc =>
    if env.sendOk k = false then ⟨false, acc, 1⟩
    else if env.cancelAfterSend k = true then ⟨false, acc, 1⟩
    else
      match script with
      | [] => ⟨false, acc, 1⟩
      | DlReply.noAck :: _ => ⟨false, acc, 1⟩
      | DlReply.ack payload :: rest =>
        if payload.length ≤ 3 then ⟨false, acc, 1⟩
        else if env.cancelAfterReply k = true then ⟨false, acc, 1⟩
        else
          if payload.getLastD 0 = 26 then
            ⟨true, acc ++ (payload.drop 3).take (payload.length - 3 - 1), 1⟩
          else
            ⟨(dlLoop env rest (k + 1)
                (acc ++ (payload.drop 3).take (payload.length - 3))).ok,
             (dlLoop env rest (k + 1)
                (acc ++ (payload.drop 3).take (payload.length - 3))).written,
             (dlLoop env rest (k + 1)
                (acc ++ (payload.drop 3).take (payload.length - 3))).attempts + 1⟩

/-- Translation of `FlarmDevice::DownloadFlight(path, env)`: construct
the BinaryWriter (`openOk` is the negation of `writer.HasError()`; the
second component of the result records whether the sink was opened),
poll IsCancelled once before the first request, then run the download
loop. -/
def dlInner (openOk cancelAtStart : Bool) (env : DlEnv) (script : List DlReply) :
    DlResult × Bool :=
  if openOk = false then (⟨false, [], 0⟩, false)
  else if cancelAtStart = true then (⟨false, [], 0⟩, true)
  else (dlLoop env script 0 [], true)

/-- Observable outcome of the RecordedFlightInfo overload of
DownloadFlight: the boolean return value, whether the destination file
exists after the call (the model starts from an absent destination),
whether the sink was ever opened, and the number of GETIGCDATA requests
attempted. -/
structure OuterResult where
  ok : Bool
  fileExists : Bool
  sinkOpened : Bool
  igcAttempts : Nat
deriving DecidableEq

/-- Translation of `FlarmDevice::DownloadFlight(flight, path, env)`: the
SELECT exchange for the stored record index must be answered with ACK
and the cancellation poll right after it must be negative, otherwise the
call fails without opening the sink or issuing any GETIGCDATA exchange;
then the path overload runs, and when it fails `File::Delete(path)`
removes the destination before failure is returned. -/
def DownloadFlightRecord (selReply : FLReply) (cancelAfterSelect : Bool)
    (openOk cancelAtStart : Bool) (env : DlEnv) (script : List DlReply) :
    OuterResult :=
  match SelectFlight selReply with
  | MessageType.ack =>
    if cancelAfterSelect then ⟨false, false, false, 0⟩
    else
      let inner := dlInner openOk cancelAtStart env script
      if inner.1.ok then ⟨true, true, inner.2, inner.1.attempts⟩
      else ⟨false, false, inner.2, inner.1.attempts⟩
  | _ => ⟨false, false, false, 0⟩

/-- The bytes a successful download writes for a chunk sequence in which
only the last chunk ends with the sentinel: every chunk contributes its
payload from offset 3 on, the final chunk without its trailing sentinel
byte. -/
def goodOut : List (List Nat) → List Nat
  | [] => []
  | [p] => (p.drop 3).dropLast
  | p :: rest => p.drop 3 ++ goodOut rest

/-- A download environment in which every send succeeds and no
cancellation poll ever fires; used to exercise the download theorems on
concrete runs. -/
def steadyEnv : DlEnv := ⟨fun _ => true, fun _ => false, fun _ => false⟩

/-- Splitting at the bar finds exactly the bar that separates a
bar-free field from the remainder. -/
lemma splitBar_append (f r : List Char) (h : '|' ∉ f) :
    splitBar (f ++ '|' :: r) = some (f, r) := by
  induction f with
  | nil => simp [splitBar]
  | cons c f ih =>
    have hc : c ≠ '|' := fun e => h (by simp [e])
    have hf : '|' ∉ f := fun m => h (List.mem_cons_of_mem _ m)
    simp [splitBar, hc, ih hf]

/-- C2: ParseRecordInfo discards a leading filename field exactly when
the first bar-separated field is longer than 10 characters (the result
is then `skipFilename` of the remainder, independent of the field's
content, while a field of length at most 10 is itself used as the date
field), and the two firmware examples parse to date 2011-08-12 / start
12:23:48 / end 14:27:13 and date 2000-11-08 / start 20:05:21 / end
21:26:30 respectively. -/
theorem parseRecordInfo_filename_heuristic :
    (∀ f r, '|' ∉ f →
        ParseRecordInfo (f ++ '|' :: r) =
          if f.length > 10 then skipFilename r else parseDateOn f r) ∧
    ParseRecordInfo
        ("18CG6NG1.IGC|2011-08-12|12:23:48|02:03:25|TOBIAS BIENIEK|TH|Club".toList) =
      some ⟨⟨2011, 8, 12⟩, ⟨12, 23, 48⟩, ⟨14, 27, 13⟩⟩ ∧
    ParseRecordInfo ("2000-11-08|20:05:21|01:21:09|J.Doe|XYZ|15M".toList) =
      some ⟨⟨2000, 11, 8⟩, ⟨20, 5, 21⟩, ⟨21, 26, 30⟩⟩ := by
  refine ⟨fun f r h => ?_, by decide, by decide⟩
  simp [ParseRecordInfo, splitBar_append f r h]

/-- C2 witness: the heuristic applied to a concrete 11-character first
field discards it. -/
theorem parseRecordInfo_filename_heuristic_witness :
    ParseRecordInfo ("ABCDEFGHIJK".toList ++ '|' :: "x".toList) =
      skipFilename ("x".toList) := by
  rw [parseRecordInfo_filename_heuristic.1 ("ABCDEFGHIJK".toList) ("x".toList)
    (by decide)]
  decide

/-- C3: the carry loops of the source's BrokenTime addition use the
strict comparison `> 60`, so component sums of exactly 60 are left in
place: 12:30:30 plus a duration of 00:30:30 evaluates to hour 12,
minute 60, second 60 instead of the 13:01:00 that the specified
carry-at-60 rule (seconds ≥ 60 roll into minutes, minutes ≥ 60 roll
into hours, leaving both below 60) would produce; a whole record with
these times parses to that out-of-range end time. -/
theorem brokenTime_add_sixty_no_carry :
    addBrokenTime ⟨12, 30, 30⟩ ⟨0, 30, 30⟩ = ⟨12, 60, 60⟩ ∧
    ParseRecordInfo ("2000-01-02|12:30:30|00:30:30|P|G|C".toList) =
      some ⟨⟨2000, 1, 2⟩, ⟨12, 30, 30⟩, ⟨12, 60, 60⟩⟩ := by
  exact ⟨by decide, by decide⟩

/-- C9: ReadFlightInfo returns failure whenever the reply is not an ACK
or its payload length is at most 2; otherwise it parses the metadata
line from byte offset 2 of the payload, so the first two payload bytes
never influence the parsed record. -/
theorem readFlightInfo_offset :
    ReadFlightInfo FLReply.nack = none ∧
    ReadFlightInfo FLReply.fail = none ∧
    (∀ p, p.length ≤ 2 → ReadFlightInfo (FLReply.ack p) = none) ∧
    (∀ p, 2 < p.length →
        ReadFlightInfo (FLReply.ack p) = ParseRecordInfo (p.drop 2)) ∧
    (∀ a b a' b' rest,
        ReadFlightInfo (FLReply.ack (a :: b :: rest)) =
          ReadFlightInfo (FLReply.ack (a' :: b' :: rest))) := by
  refine ⟨rfl, rfl, fun p h => ?_, fun p h => ?_, fun a b a' b' rest => ?_⟩
  · simp [ReadFlightInfo, h]
  · simp [ReadFlightInfo, Nat.not_le.mpr h]
  · simp [ReadFlightInfo]

/-- C9 witness: an ACK with a two-byte payload fails. -/
theorem readFlightInfo_offset_witness :
    ReadFlightInfo (FLReply.ack ['a', 'b']) = none :=
  readFlightInfo_offset.2.2.1 ['a', 'b'] (by decide)

/-- Unfolding of one enumeration iteration whose SELECT is ACKed, the
cancellation poll is negative, and the metadata retrieval succeeds: the
parsed record is appended and the loop continues. -/
lemma readAux_step_append (cap : Nat) (cancel : Nat → Bool) (sp : List Char)
    (ir : FLReply) (rest : List FLReply) (c i : Nat)
    (acc : List RecordedFlightInfo) (pr : ParsedRecord)
    (hfull : acc.length < cap) (hc : cancel c = false)
    (hinfo : ReadFlightInfo ir = some pr) :
    readAux cap cancel (FLReply.ack sp :: ir :: rest) c i acc =
      ⟨(readAux cap cancel rest (c + 1) ((i + 1) % 256) (acc ++ [mkRecord i pr])).ok,
       (readAux cap cancel rest (c + 1) ((i + 1) % 256) (acc ++ [mkRecord i pr])).list,
       Req.select i :: Req.getInfo ::
         (readAux cap cancel rest (c + 1) ((i + 1) % 256) (acc ++ [mkRecord i pr])).trace⟩ := by
  simp [readAux, Nat.not_le.mpr hfull, SelectFlight, hc, hinfo]

/-- Unfolding of one enumeration iteration whose SELECT is ACKed, the
cancellation poll is negative, and the metadata retrieval fails: the
record is skipped and the loop continues unchanged. -/
lemma readAux_step_skip (cap : Nat) (cancel : Nat → Bool) (sp : List Char)
    (ir : FLReply) (rest : List FLReply) (c i : Nat)
    (acc : List RecordedFlightInfo)
    (hfull : acc.length < cap) (hc : cancel c = false)
    (hinfo : ReadFlightInfo ir = none) :
    readAux cap cancel (FLReply.ack sp :: ir :: rest) c i acc =
      ⟨(readAux cap cancel rest (c + 1) ((i + 1) % 256) acc).ok,
       (readAux cap cancel rest (c + 1) ((i + 1) % 256) acc).list,
       Req.select i :: Req.getInfo ::
         (readAux cap cancel rest (c + 1) ((i + 1) % 256) acc).trace⟩ := by
  simp [readAux, Nat.not_le.mpr hfull, SelectFlight, hc, hinfo]

/-- Unfolding of one enumeration iteration whose SELECT is answered with
NACK: the loop stops with success. -/
lemma readAux_step_nack (cap : Nat) (cancel : Nat → Bool)
    (rest : List FLReply) (c i : Nat) (acc : List RecordedFlightInfo)
    (hfull : acc.length < cap) :
    readAux cap cancel (FLReply.nack :: rest) c i acc =
      ⟨true, acc, [Req.select i]⟩ := by
  simp [readAux, Nat.not_le.mpr hfull, SelectFlight]

/-- C7: after a SELECT answered with ACK, a failure of the GETRECORDINFO
exchange or of the metadata parse (any reply on which ReadFlightInfo
fails) neither aborts nor fails the enumeration: the record is not
appended and the loop continues with the next index, its outcome being
exactly the outcome of the remaining loop. -/
theorem flightList_skip_bad_record (cap : Nat) (cancel : Nat → Bool)
    (sp : List Char) (bad : FLReply) (rest : List FLReply) (c i : Nat)
    (acc : List RecordedFlightInfo)
    (hfull : acc.length < cap) (hc : cancel c = false)
    (hbad : ReadFlightInfo bad = none) :
    readAux cap cancel (FLReply.ack sp :: bad :: rest) c i acc =
      ⟨(readAux cap cancel rest (c + 1) ((i + 1) % 256) acc).ok,
       (readAux cap cancel rest (c + 1) ((i + 1) % 256) acc).list,
       Req.select i :: Req.getInfo ::
         (readAux cap cancel rest (c + 1) ((i + 1) % 256) acc).trace⟩ :=
  readAux_step_skip cap cancel sp bad rest c i acc hfull hc hbad

/-- C7 witness: a concrete enumeration in which the only record's
metadata exchange fails continues (and then stops on the exhausted
script) instead of aborting at the bad record. -/
theorem flightList_skip_bad_record_witness :
    readAux 8 (fun _ => false) [FLReply.ack [], FLReply.fail] 0 0 [] =
      ⟨false, [], [Req.select 0, Req.getInfo, Req.select 1]⟩ := by
  rw [flightList_skip_bad_record 8 (fun _ => false) [] FLReply.fail [] 0 0 []
    (by decide) rfl rfl]
  decide

/-- Enumeration over a script of good records: each record is a SELECT
ACK followed by a metadata reply that parses; a final NACK stops the
loop.  The run succeeds and appends exactly one record per pair. -/
lemma readAux_good_records (cap : Nat) :
    ∀ recs : List (List Char), ∀ c i : Nat, ∀ acc : List RecordedFlightInfo,
      (∀ p ∈ recs, (ReadFlightInfo (FLReply.ack p)).isSome) →
      acc.length + recs.length < cap →
      ((readAux cap (fun _ => false)
          ((recs.map fun p => [FLReply.ack [], FLReply.ack p]).flatten ++ [FLReply.nack])
          c i acc).ok = true ∧
       (readAux cap (fun _ => false)
          ((recs.map fun p => [FLReply.ack [], FLReply.ack p]).flatten ++ [FLReply.nack])
          c i acc).list.length = acc.length + recs.length) := by
  intro recs
  induction recs with
  | nil =>
    intro c i acc _ hcap
    rw [show ((List.map (fun p => [FLReply.ack [], FLReply.ack p]) []).flatten
          ++ [FLReply.nack]) = [FLReply.nack] by simp]
    rw [readAux_step_nack cap (fun _ => false) [] c i acc (by simpa using hcap)]
    simp
  | cons p ps ih =>
    intro c i acc hp hcap
    obtain ⟨pr, hpr⟩ := Option.isSome_iff_exists.mp (hp p (List.mem_cons_self p ps))
    rw [show ((List.map (fun q => [FLReply.ack [], FLReply.ack q]) (p :: ps)).flatten
          ++ [FLReply.nack]) =
        FLReply.ack [] :: FLReply.ack p ::
          ((List.map (fun q => [FLReply.ack [], FLReply.ack q]) ps).flatten
            ++ [FLReply.nack]) by simp]
    rw [readAux_step_append cap (fun _ => false) [] (FLReply.ack p) _ c i acc pr
      (by omega) rfl hpr]
    have hlen2 : (acc ++ [mkRecord i pr]).length + ps.length < cap := by
      simp only [List.length_cons] at hcap
      simp
      omega
    have hrec := ih (c + 1) ((i + 1) % 256) (acc ++ [mkRecord i pr])
      (fun q hq => hp q (List.mem_cons_of_mem _ hq)) hlen2
    refine ⟨hrec.1, ?_⟩
    rw [hrec.2]
    simp
    omega

/-- C5 counterexample: a run in which the device ACKs the first
SELECTRECORD exchange, the metadata exchange for that record fails, and
the second SELECTRECORD exchange is answered with NACK (capacity 8 not
reached).  The run stops at the NACK and returns success, but the list
length is 0, not 1 (the number of prior SELECT ACKs), because the
ACKed record was skipped. -/
theorem flightList_length_counterexample :
    (ReadFlightList 8 (fun _ => false)
        [FLReply.ack [], FLReply.fail, FLReply.nack]).ok = true ∧
    (ReadFlightList 8 (fun _ => false)
        [FLReply.ack [], FLReply.fail, FLReply.nack]).trace =
      [Req.select 0, Req.getInfo, Req.select 1] ∧
    (ReadFlightList 8 (fun _ => false)
        [FLReply.ack [], FLReply.fail, FLReply.nack]).list.length = 0 := by
  decide

/-- C5 as amended: when additionally cancellation never fires and every
ACKed record's GETRECORDINFO reply parses successfully, a run of n
SELECT ACKs followed by a NACK (capacity not reached) stops at the first
NACK, returns success, and yields a list of length exactly n. -/
theorem flightList_nack_stop_length (cap : Nat) (recs : List (List Char))
    (hcap : recs.length < cap)
    (hp : ∀ p ∈ recs, (ReadFlightInfo (FLReply.ack p)).isSome) :
    (ReadFlightList cap (fun _ => false)
        ((recs.map fun p => [FLReply.ack [], FLReply.ack p]).flatten
          ++ [FLReply.nack])).ok = true ∧
    (ReadFlightList cap (fun _ => false)
        ((recs.map fun p => [FLReply.ack [], FLReply.ack p]).flatten
          ++ [FLReply.nack])).list.length = recs.length := by
  have h := readAux_good_records cap recs 0 0 [] hp (by simpa using hcap)
  exact ⟨h.1, by simpa using h.2⟩

/-- C5 witness: one good record followed by a NACK yields success and a
single-element list. -/
theorem flightList_nack_stop_length_witness :
    (ReadFlightList 8 (fun _ => false)
        (([("xy2000-11-08|20:05:21|01:21:09|J.Doe|XYZ|15M".toList)].map
            fun p => [FLReply.ack [], FLReply.ack p]).flatten
          ++ [FLReply.nack])).ok = true ∧
    (ReadFlightList 8 (fun _ => false)
        (([("xy2000-11-08|20:05:21|01:21:09|J.Doe|XYZ|15M".toList)].map
            fun p => [FLReply.ack [], FLReply.ack p]).flatten
          ++ [FLReply.nack])).list.length = 1 :=
  flightList_nack_stop_length 8
    [("xy2000-11-08|20:05:21|01:21:09|J.Doe|XYZ|15M".toList)]
    (by decide) (by decide)

/-- C4 counterexample: with the cancellation flag already set before the
call, ReadFlightList still issues the first SELECT exchange — the trace
is nonempty — and then returns failure rather than an empty flight list,
because the source polls IsCancelled only after the SELECT reply has
arrived with ACK. -/
theorem cancellation_precheck_counterexample :
    (ReadFlightList 32 (fun _ => true) [FLReply.ack []]).ok = false ∧
    (ReadFlightList 32 (fun _ => true) [FLReply.ack []]).trace =
      [Req.select 0] ∧
    (ReadFlightList 32 (fun _ => true) [FLReply.ack []]).trace ≠ [] := by
  decide

/-- C4 as amended: cancellation is polled only after an exchange is
under way — in ReadFlightList after a SELECT reply arrives with ACK, and
in DownloadFlight once before the first request and then after each
request has been sent and after each reply.  Consequently an operation
whose cancellation flag is already set issues at most one further
exchange: a fully cancelled ReadFlightList (with room in the list) still
issues exactly one SELECT exchange and appends nothing; a fully
cancelled download loop still attempts exactly one GETIGCDATA request
and writes nothing; only the poll made before the download loop starts
prevents any request at all. -/
theorem cancellation_postcheck :
    (∀ cap cancel script, 0 < cap → (∀ j : Nat, cancel j = true) →
        (ReadFlightList cap cancel script).list = [] ∧
        (ReadFlightList cap cancel script).trace = [Req.select 0]) ∧
    (∀ env : DlEnv, ∀ script, (∀ k, env.cancelAfterSend k = true) →
        dlLoop env script 0 [] = ⟨false, [], 1⟩) ∧
    (∀ env : DlEnv, ∀ script, dlInner true true env script =
        (⟨false, [], 0⟩, true)) := by
  refine ⟨fun cap cancel script hcap hc => ?_, fun env script hc => ?_,
    fun env script => rfl⟩
  · cases script with
    | nil => simp [ReadFlightList, readAux, Nat.not_le.mpr hcap]
    | cons r rest =>
      cases r with
      | ack p =>
        cases rest with
        | nil =>
          simp [ReadFlightList, readAux, Nat.not_le.mpr hcap, SelectFlight,
            hc 0]
        | cons ir rest2 =>
          simp [ReadFlightList, readAux, Nat.not_le.mpr hcap, SelectFlight,
            hc 0]
      | nack =>
        simp [ReadFlightList, readAux, Nat.not_le.mpr hcap, SelectFlight]
      | fail =>
        simp [ReadFlightList, readAux, Nat.not_le.mpr hcap, SelectFlight]
  · cases script with
    | nil => simp [dlLoop.eq_1]
    | cons r rest =>
      cases r with
      | noAck => simp [dlLoop.eq_2]
      | ack payload => simp [dlLoop.eq_3, hc 0]

/-- C4 witness: a concrete fully-cancelled enumeration still issues one
SELECT exchange. -/
theorem cancellation_postcheck_witness :
    (ReadFlightList 32 (fun _ => true) [FLReply.nack]).trace =
      [Req.select 0] :=
  (cancellation_postcheck.1 32 (fun _ => true) [FLReply.nack]
    (by decide) (fun _ => rfl)).2

/-- The flight list after the metadata step of one enumeration
iteration: the parsed record is appended, a failed retrieval leaves the
list unchanged. -/
def infoAcc (i : Nat) (ir : FLReply) (acc : List RecordedFlightInfo) :
    List RecordedFlightInfo :=
  match ReadFlightInfo ir with
  | some pr => acc ++ [mkRecord i pr]
  | none => acc

/-- The SELECT indices issued by the enumeration loop: starting from a
uint8_t value i below 256, the j-th SELECT of the remaining run carries
(i + j) mod 256.  The outer bound n on the script length drives the
induction. -/
lemma readAux_selects_mod (cap : Nat) (cancel : Nat → Bool) :
    ∀ n : Nat, ∀ script : List FLReply, ∀ c i : Nat,
      ∀ acc : List RecordedFlightInfo, script.length ≤ n → i < 256 →
      traceSelects (readAux cap cancel script c i acc).trace =
        (List.range
            (traceSelects (readAux cap cancel script c i acc).trace).length).map
          (fun j => (i + j) % 256) := by
  intro n
  induction n with
  | zero =>
    intro script c i acc hlen hi
    have hscript : script = [] := List.eq_nil_of_length_eq_zero
      (Nat.le_zero.mp hlen)
    subst hscript
    by_cases hf : cap ≤ acc.length <;>
      simp [readAux, hf, traceSelects, Nat.mod_eq_of_lt hi, List.range_succ, List.range_zero]
  | succ n ih =>
    intro script c i acc hlen hi
    cases script with
    | nil =>
      by_cases hf : cap ≤ acc.length <;>
        simp [readAux, hf, traceSelects, Nat.mod_eq_of_lt hi, List.range_succ, List.range_zero]
    | cons r rest =>
      cases r with
      | nack =>
        by_cases hf : cap ≤ acc.length <;>
          simp [readAux, hf, SelectFlight, traceSelects,
            Nat.mod_eq_of_lt hi, List.range_succ, List.range_zero]
      | fail =>
        by_cases hf : cap ≤ acc.length <;>
          simp [readAux, hf, SelectFlight, traceSelects,
            Nat.mod_eq_of_lt hi, List.range_succ, List.range_zero]
      | ack sp =>
        cases rest with
        | nil =>
          by_cases hf : cap ≤ acc.length
          · simp [readAux, hf, traceSelects]
          · by_cases hcl : cancel c = true
            · simp [readAux, hf, SelectFlight, hcl, traceSelects,
                Nat.mod_eq_of_lt hi, List.range_succ, List.range_zero]
            · simp [readAux, hf, SelectFlight, hcl, traceSelects,
                Nat.mod_eq_of_lt hi, List.range_succ, List.range_zero]
        | cons ir rest2 =>
          by_cases hf : cap ≤ acc.length
          · simp [readAux, hf, traceSelects]
          · by_cases hcl : cancel c = true
            · simp [readAux, hf, SelectFlight, hcl, traceSelects,
                Nat.mod_eq_of_lt hi, List.range_succ, List.range_zero]
            · have hstep : readAux cap cancel (FLReply.ack sp :: ir :: rest2)
                  c i acc =
                  ⟨(readAux cap cancel rest2 (c + 1) ((i + 1) % 256)
                      (infoAcc i ir acc)).ok,
                   (readAux cap cancel rest2 (c + 1) ((i + 1) % 256)
                      (infoAcc i ir acc)).list,
                   Req.select i :: Req.getInfo ::
                     (readAux cap cancel rest2 (c + 1) ((i + 1) % 256)
                        (infoAcc i ir acc)).trace⟩ := by
                cases hir : ReadFlightInfo ir with
                | some pr =>
                  rw [readAux_step_append cap cancel sp ir rest2 c i acc pr
                    (Nat.not_le.mp hf) (by simp at hcl; exact hcl) hir]
                  simp [infoAcc, hir]
                | none =>
                  rw [readAux_step_skip cap cancel sp ir rest2 c i acc
                    (Nat.not_le.mp hf) (by simp at hcl; exact hcl) hir]
                  simp [infoAcc, hir]
              rw [hstep]
              simp only [traceSelects]
              rw [ih rest2 (c + 1) ((i + 1) % 256) (infoAcc i ir acc)
                (by simp at hlen; omega) (Nat.mod_lt _ (by omega))]
              simp only [List.length_cons, List.length_map, List.length_range]
              rw [List.range_succ_eq_map, List.map_cons, List.map_map]
              refine congrArg₂ List.cons (by simp; omega) ?_
              refine (List.map_congr_left fun j _ => ?_).symm
              simp only [Function.comp_apply]
              omega

/-- C10: the record index passed to SelectFlight is the uint8_t loop
counter, so the k-th SELECT exchange of any run carries index k mod 256:
the list of SELECT indices of every trace equals the mod-256 reduction
of 0, 1, 2, and so on, and in a long enough all-ACK run the indices wrap
past 255 back to 0 instead of growing. -/
theorem selectFlight_index_mod256 (cap : Nat) (cancel : Nat → Bool)
    (script : List FLReply) :
    traceSelects (ReadFlightList cap cancel script).trace =
      (List.range
          (traceSelects (ReadFlightList cap cancel script).trace).length).map
        (fun j => j % 256) := by
  have h := readAux_selects_mod cap cancel script.length script 0 0 []
    le_rfl (by omega)
  simpa [ReadFlightList] using h

/-- A download run over a script of ACKed chunks, each of payload length
greater than 3, in which only the final chunk ends with the sentinel
0x1A, with reliable sends and no cancellation, writes exactly
`goodOut chunks` after whatever was already written, succeeds, and
attempts one request per chunk. -/
lemma dlLoop_allAck (env : DlEnv)
    (hs : ∀ k, env.sendOk k = true)
    (hc1 : ∀ k, env.cancelAfterSend k = false)
    (hc2 : ∀ k, env.cancelAfterReply k = false) :
    ∀ chunks : List (List Nat), ∀ k : Nat, ∀ acc : List Nat,
      chunks ≠ [] →
      (∀ p ∈ chunks, 3 < p.length) →
      (∀ p ∈ chunks.dropLast, p.getLastD 0 ≠ 26) →
      (chunks.getLastD []).getLastD 0 = 26 →
      dlLoop env (chunks.map DlReply.ack) k acc =
        ⟨true, acc ++ goodOut chunks, chunks.length⟩ := by
  intro chunks
  induction chunks with
  | nil => intro k acc hne _ _ _; exact absurd rfl hne
  | cons p rest ih =>
    intro k acc _ hlen hmid hlast
    cases rest with
    | nil =>
      have hp : 3 < p.length := hlen p (List.mem_cons_self p [])
      have hpl : p.getLastD 0 = 26 := by simpa using hlast
      have htake : (p.drop 3).take (p.length - 3 - 1) = (p.drop 3).dropLast := by
        rw [List.dropLast_eq_take, List.length_drop]
      rw [List.map_cons, List.map_nil, dlLoop.eq_3, hs k, hc1 k, hc2 k,
        if_neg (by decide), if_neg (by decide), if_neg (Nat.not_le.mpr hp),
        if_neg (by decide), if_pos hpl, htake]
      simp [goodOut]
    | cons q rest2 =>
      have hp : 3 < p.length := hlen p (List.mem_cons_self p (q :: rest2))
      have hpl : ¬ p.getLastD 0 = 26 := by
        refine hmid p ?_
        rw [List.dropLast_cons₂]
        exact List.mem_cons_self p _
      have htake : (p.drop 3).take (p.length - 3) = p.drop 3 := by
        rw [show p.length - 3 = (p.drop 3).length by rw [List.length_drop]]
        exact List.take_length (p.drop 3)
      have hrec := ih (k + 1) (acc ++ p.drop 3) (by simp)
        (fun x hx => hlen x (List.mem_cons_of_mem _ hx))
        (fun x hx => by
          refine hmid x ?_
          rw [List.dropLast_cons₂]
          exact List.mem_cons_of_mem _ hx)
        (by simpa using hlast)
      rw [List.map_cons, dlLoop.eq_3, hs k, hc1 k, hc2 k,
        if_neg (by decide), if_neg (by decide), if_neg (Nat.not_le.mpr hp),
        if_neg (by decide), if_neg hpl, htake, hrec]
      simp [goodOut, List.append_assoc]

/-- The output of a download over good chunks, expressed without the
recursion: all chunks but the last contribute their payload from offset
3 on, the last contributes its payload from offset 3 on without its
final byte (the sentinel). -/
lemma goodOut_eq : ∀ chunks : List (List Nat), chunks ≠ [] →
    goodOut chunks =
      ((chunks.dropLast.map fun p => p.drop 3).flatten) ++
        ((chunks.getLastD []).drop 3).dropLast := by
  intro chunks
  induction chunks with
  | nil => intro h; exact absurd rfl h
  | cons p rest ih =>
    intro _
    cases rest with
    | nil => simp [goodOut]
    | cons q rest2 =>
      rw [show goodOut (p :: q :: rest2) = p.drop 3 ++ goodOut (q :: rest2)
          from rfl,
        ih (by simp), List.dropLast_cons₂]
      simp [List.getLastD_cons]

/-- Length of the good-run output: one less than the sum of the
effective lengths (payload length minus 3) over all chunks. -/
lemma goodOut_length : ∀ chunks : List (List Nat), chunks ≠ [] →
    (∀ p ∈ chunks, 3 < p.length) →
    (goodOut chunks).length + 1 = ((chunks.map fun p => p.length - 3).sum) := by
  intro chunks
  induction chunks with
  | nil => intro h; exact absurd rfl h
  | cons p rest ih =>
    intro _ hlen
    cases rest with
    | nil =>
      have hp : 3 < p.length := hlen p (List.mem_cons_self p [])
      simp [goodOut]
      omega
    | cons q rest2 =>
      have hrec := ih (by simp)
        (fun x hx => hlen x (List.mem_cons_of_mem _ hx))
      rw [show goodOut (p :: q :: rest2) = p.drop 3 ++ goodOut (q :: rest2)
          from rfl]
      simp only [List.map_cons, List.sum_cons, List.length_append,
        List.length_drop] at hrec ⊢
      omega

/-- C1: a download run in which every GETIGCDATA reply is an ACK of
payload length greater than 3, only the final chunk's last payload byte
is the sentinel 0x1A, sends are reliable and cancellation never fires,
succeeds; the bytes written to the sink are exactly each chunk's payload
from offset 3 on, the final chunk's contribution excluding its trailing
sentinel byte, and their total count is the sum over all chunks of
(payload length − 3) minus 1 for the final chunk. -/
theorem downloadFlight_chunk_total (chunks : List (List Nat)) (env : DlEnv)
    (hne : chunks ≠ [])
    (hlen : ∀ p ∈ chunks, 3 < p.length)
    (hmid : ∀ p ∈ chunks.dropLast, p.getLastD 0 ≠ 26)
    (hlast : (chunks.getLastD []).getLastD 0 = 26)
    (hs : ∀ k, env.sendOk k = true)
    (hc1 : ∀ k, env.cancelAfterSend k = false)
    (hc2 : ∀ k, env.cancelAfterReply k = false) :
    (dlInner true false env (chunks.map DlReply.ack)).1.ok = true ∧
    (dlInner true false env (chunks.map DlReply.ack)).1.written =
      ((chunks.dropLast.map fun p => p.drop 3).flatten) ++
        ((chunks.getLastD []).drop 3).dropLast ∧
    (dlInner true false env (chunks.map DlReply.ack)).1.written.length =
      ((chunks.map fun p => p.length - 3).sum) - 1 := by
  have hrun := dlLoop_allAck env hs hc1 hc2 chunks 0 [] hne hlen hmid hlast
  have hinner : (dlInner true false env (chunks.map DlReply.ack)).1 =
      dlLoop env (chunks.map DlReply.ack) 0 [] := rfl
  rw [hinner, hrun]
  refine ⟨rfl, by simpa using goodOut_eq chunks hne, ?_⟩
  have hl := goodOut_length chunks hne hlen
  simp only [List.nil_append]
  omega

/-- C1 witness: two concrete chunks, the second ending with the
sentinel, write exactly the three effective data bytes. -/
theorem downloadFlight_chunk_total_witness :
    (dlInner true false steadyEnv
        ([[0, 0, 10, 65, 66], [0, 0, 20, 67, 26]].map DlReply.ack)).1.written =
      [65, 66, 67] := by
  have h := downloadFlight_chunk_total [[0, 0, 10, 65, 66], [0, 0, 20, 67, 26]]
    steadyEnv (by decide) (by decide) (by decide) (by decide)
    (fun _ => rfl) (fun _ => rfl) (fun _ => rfl)
  rw [h.2.1]
  decide

/-- C6: whenever the record overload of DownloadFlight gets past its
SELECT exchange (ACK, no cancellation) and opens the sink, any failure
of the download loop — timeout, NACK, undersized payload, send failure
or cancellation — makes the call delete the destination and return
failure: the file does not exist afterwards, even though the sink had
been opened. -/
theorem downloadFlight_failure_deletes (selPayload : List Char)
    (c0 : Bool) (env : DlEnv) (script : List DlReply)
    (hfail : (dlInner true c0 env script).1.ok = false) :
    DownloadFlightRecord (FLReply.ack selPayload) false true c0 env script =
      ⟨false, false, true, (dlInner true c0 env script).1.attempts⟩ := by
  have hopened : (dlInner true c0 env script).2 = true := by
    cases c0 <;> rfl
  simp [DownloadFlightRecord, SelectFlight, hfail, hopened]

/-- C6 witness: two chunks are written, then the script is exhausted
(a timeout); the destination no longer exists after the call. -/
theorem downloadFlight_failure_deletes_witness :
    DownloadFlightRecord (FLReply.ack []) false true false steadyEnv
        [DlReply.ack [0, 0, 50, 65], DlReply.ack [0, 0, 80, 66]] =
      ⟨false, false, true, 3⟩ := by
  rw [downloadFlight_failure_deletes [] false steadyEnv
    [DlReply.ack [0, 0, 50, 65], DlReply.ack [0, 0, 80, 66]] (by decide)]
  decide

/-- C8: if the SELECT exchange of the record overload of DownloadFlight
is answered with anything other than ACK, the download does not begin:
the call returns failure, the sink is never opened, no GETIGCDATA
exchange is attempted, and no file is left behind. -/
theorem downloadFlight_select_fail_no_start (selReply : FLReply)
    (cSel openOk c0 : Bool) (env : DlEnv) (script : List DlReply)
    (h : SelectFlight selReply ≠ MessageType.ack) :
    DownloadFlightRecord selReply cSel openOk c0 env script =
      ⟨false, false, false, 0⟩ := by
  cases selReply with
  | ack p => exact absurd rfl h
  | nack => rfl
  | fail => rfl

/-- C8 witness: a NACKed SELECT yields failure with no sink and no data
request. -/
theorem downloadFlight_select_fail_no_start_witness :
    DownloadFlightRecord FLReply.nack false true false steadyEnv
        [DlReply.ack [0, 0, 1, 26]] = ⟨false, false, false, 0⟩ :=
  downloadFlight_select_fail_no_start FLReply.nack false true false steadyEnv
    [DlReply.ack [0, 0, 1, 26]] (by decide)

end FlarmLogger
